import Mathlib

/-!
Verification of the StorageClass patroller
(`virtualcluster/pkg/syncer/resources/storageclass/checker.go`).

The Go code is embedded shallowly: state that the controller reads and
mutates during one pass (the authoritative super-master cache, each tenant
cluster's objects, the shared mismatch counter `numMissMatchedStorageClasses`,
the upward-sync queue, and the externally visible remedy / metric / log
effects) is threaded explicitly through pure Lean functions, one per Go
function or loop body.  Collaborator calls that can fail
(`storageclassLister.List/Get`, `MultiClusterController.List/Get/
GetClusterClient`, the tenant delete) are driven by failure oracles carried
in an environment record, and the two external pure predicates
(`publicStorageClass` and `CheckStorageClassEquality`, declared outside this
file) are abstract functions of that environment.
-/

set_option maxHeartbeats 1000000

namespace StorageClassChecker

/-- A StorageClass object as cached in a cluster: its unique name and an
opaque payload standing for the remaining comparison-relevant fields. -/
structure StorageClass where
  name : String
  payload : Nat
deriving DecidableEq, Repr

/-- Result of a cache lookup by name (`storageclassLister.Get` in the super
master): the object, a not-found signal, or an error of any other kind. -/
inductive GetResult where
  | found (sc : StorageClass)
  | notFound
  | otherError
deriving DecidableEq, Repr

/-- Modelled from the spec: `constants.DefaultDeletionPolicy` is declared
outside this file; per the spec the delete uses "cascading deletion
semantics (children are deleted before/along with the parent — exact policy
configurable, default cascading)". -/
inductive DeletionPolicy where
  | cascading
  | orphanDependents
deriving DecidableEq, Repr

/-- Modelled from the spec: the default, cascading, deletion policy. -/
def DefaultDeletionPolicy : DeletionPolicy := .cascading

/-- First object with the given name in a cached object list. -/
def findSC (n : String) : List StorageClass → Option StorageClass
  | [] => none
  | sc :: rest => if sc.name = n then some sc else findSC n rest

/-- Environment of one pass: the tenant-cluster registry, the failure
behaviour of each collaborator call, and the two external pure predicates. -/
structure Env where
  clusterNames : List String
  superListFails : Bool
  superGetFails : String → Bool
  tenantListFails : String → Bool
  clientFails : String → Bool
  deleteFails : String → String → Bool
  probeFails : String → String → Bool
  checkStorageClassEquality : StorageClass → StorageClass → Option StorageClass
  publicStorageClass : StorageClass → Bool

/-- State threaded through a pass: the authoritative cache, each tenant
cluster's objects, the shared counter `numMissMatchedStorageClasses`
(`drift`), the upward queue, and the externally visible remedy / metric /
log effects. -/
structure World where
  superStore : List StorageClass
  tenantStore : String → List StorageClass
  drift : Nat
  upwardQueue : List (String × String)
  deletesAttempted : List (String × String × DeletionPolicy)
  deletedOrphanMetric : Nat
  requeuedMetric : Nat
  publishedGauge : Option Nat
  errorLogs : Nat

/-- `storageclassLister.Get` seen through the failure oracle: an injected
non-not-found error, the cached object, or not-found. -/
def superGet (env : Env) (store : List StorageClass) (n : String) : GetResult :=
  if env.superGetFails n then .otherError
  else match findSC n store with
    | some sc => .found sc
    | none => .notFound

/-- One iteration of the loop body of `checkStorageClassOfTenantCluster`
over the tenant object `v` of cluster `clusterName`: orphan deletion when
the super lookup is not-found, skip on any other lookup error, and the
equality check with counter increment plus public-gated enqueue on a diff. -/
def checkOne (env : Env) (clusterName : String) (v : StorageClass) (w : World) : World :=
  match superGet env w.superStore v.name with
  | .notFound =>
      if env.clientFails clusterName then
        { w with errorLogs := w.errorLogs + 1 }
      else
        let w1 := { w with deletesAttempted :=
          w.deletesAttempted ++ [(clusterName, v.name, DefaultDeletionPolicy)] }
        if env.deleteFails clusterName v.name then
          { w1 with errorLogs := w1.errorLogs + 1 }
        else
          { w1 with
              tenantStore := fun c =>
                if c = clusterName then (w1.tenantStore c).filter (fun sc => sc.name != v.name)
                else w1.tenantStore c,
              deletedOrphanMetric := w1.deletedOrphanMetric + 1 }
  | .otherError => { w with errorLogs := w.errorLogs + 1 }
  | .found p =>
      match env.checkStorageClassEquality p v with
      | none => w
      | some _ =>
          let w1 := { w with drift := w.drift + 1 }
          if env.publicStorageClass p then
            { w1 with upwardQueue := w1.upwardQueue ++ [(clusterName, p.name)] }
          else w1

/-- The per-item loop of `checkStorageClassOfTenantCluster` over a snapshot
of the tenant's object list. -/
def scanFold (env : Env) (clusterName : String) (items : List StorageClass) (w : World) : World :=
  items.foldl (fun w v => checkOne env clusterName v w) w

/-- `checkStorageClassOfTenantCluster`: list the tenant cluster's objects
(log and return on failure), then process each listed item in order. -/
def checkStorageClassOfTenantCluster (env : Env) (clusterName : String) (w : World) : World :=
  if env.tenantListFails clusterName then { w with errorLogs := w.errorLogs + 1 }
  else scanFold env clusterName (w.tenantStore clusterName) w

/-- The fan-out over tenant clusters in `PatrollerDo` (goroutines joined by
`wg.Wait()`), embedded as a fold over the cluster names. -/
def scanPhase (env : Env) (l : List String) (w : World) : World :=
  l.foldl (fun w c => checkStorageClassOfTenantCluster env c w) w

/-- One probe of tenant `clusterName` for super object `p` in the trailing
sweep of `PatrollerDo` (`MultiClusterController.Get`); the code logs the
fetch error for both not-found and any other error, and enqueues (plus
bumps the requeue metric) only on not-found. -/
def sweepProbe (env : Env) (p : StorageClass) (clusterName : String) (w : World) : World :=
  if env.probeFails clusterName p.name then
    { w with errorLogs := w.errorLogs + 1 }
  else match findSC p.name (w.tenantStore clusterName) with
    | some _ => w
    | none =>
        { w with
            requeuedMetric := w.requeuedMetric + 1,
            upwardQueue := w.upwardQueue ++ [(clusterName, p.name)],
            errorLogs := w.errorLogs + 1 }

/-- The inner loop of the sweep: probe every tenant cluster for one super
object. -/
def sweepClusterFold (env : Env) (p : StorageClass) (cs : List String) (w : World) : World :=
  cs.foldl (fun w c => sweepProbe env p c w) w

/-- Sweep body for one super object: non-public objects are skipped, public
ones are probed in every tenant cluster. -/
def sweepSuper (env : Env) (p : StorageClass) (w : World) : World :=
  if env.publicStorageClass p then sweepClusterFold env p env.clusterNames w else w

/-- The outer loop of the sweep over the listed super master objects. -/
def sweepFold (env : Env) (ps : List StorageClass) (w : World) : World :=
  ps.foldl (fun w p => sweepSuper env p w) w

/-- The trailing super-side sweep of `PatrollerDo`. -/
def sweepPhase (env : Env) (w : World) : World :=
  sweepFold env w.superStore w

/-- `PatrollerDo`: give up when there are no tenant clusters; otherwise
reset the counter, run all tenant scans, list the super master cache (log
and return on failure), run the sweep, and publish the gauge. -/
def PatrollerDo (env : Env) (w : World) : World :=
  if env.clusterNames.isEmpty then w
  else
    let w1 := { w with drift := 0 }
    let w2 := scanPhase env env.clusterNames w1
    if env.superListFails then { w2 with errorLogs := w2.errorLogs + 1 }
    else
      let w3 := sweepPhase env w2
      { w3 with publishedGauge := some w3.drift }

/-- Outcome of `StartPatrol`: the returned error, if any, and whether
`Patroller.Start` was reached. -/
structure StartResult where
  errorMessage : Option String
  patrollerStarted : Bool
deriving DecidableEq, Repr

/-- `StartPatrol`: wait on the cache-sync gate; on gate failure return an
error without starting the patroller, otherwise start it and return nil. -/
def StartPatrol (cacheSyncSucceeded : Bool) : StartResult :=
  if cacheSyncSucceeded then { errorMessage := none, patrollerStarted := true }
  else { errorMessage := some "failed to wait for caches to sync before starting Service checker",
         patrollerStarted := false }

/-- Does processing tenant object `v` of a scan enqueue an upward remedy? -/
def enqueueCond (env : Env) (store : List StorageClass) (v : StorageClass) : Bool :=
  match superGet env store v.name with
  | .found p => (env.checkStorageClassEquality p v).isSome && env.publicStorageClass p
  | _ => false

/-- Does processing tenant object `v` of a scan increment the counter? -/
def driftCond (env : Env) (store : List StorageClass) (v : StorageClass) : Bool :=
  match superGet env store v.name with
  | .found p => (env.checkStorageClassEquality p v).isSome
  | _ => false

/-- Does processing tenant object `v` of a scan attempt the orphan delete? -/
def deleteCond (env : Env) (store : List StorageClass) (clusterName : String)
    (v : StorageClass) : Bool :=
  match superGet env store v.name with
  | .notFound => !env.clientFails clusterName
  | _ => false

/-- The upward-queue keys a scan of `items` appends, in order. -/
def scanEnqueues (env : Env) (store : List StorageClass) (c : String)
    (items : List StorageClass) : List (String × String) :=
  items.filterMap (fun v => if enqueueCond env store v then some (c, v.name) else none)

/-- The delete remedies a scan of `items` attempts, in order. -/
def scanDeletes (env : Env) (store : List StorageClass) (c : String)
    (items : List StorageClass) : List (String × String × DeletionPolicy) :=
  items.filterMap (fun v =>
    if deleteCond env store c v then some (c, v.name, DefaultDeletionPolicy) else none)

/-- How many counter increments a scan of `items` performs. -/
def scanDrift (env : Env) (store : List StorageClass) (items : List StorageClass) : Nat :=
  items.countP (driftCond env store)

/-- The upward-queue keys cluster `c`'s whole scan appends, as a function of
the pass-initial world. -/
def scanAddsOf (env : Env) (w : World) (c : String) : List (String × String) :=
  if env.tenantListFails c then [] else scanEnqueues env w.superStore c (w.tenantStore c)

/-- How many counter increments cluster `c`'s whole scan performs, as a
function of the pass-initial world. -/
def clusterDriftOf (env : Env) (w : World) (c : String) : Nat :=
  if env.tenantListFails c then 0 else scanDrift env w.superStore (w.tenantStore c)

/-- The delete remedies cluster `c`'s whole scan attempts, as a function of
the pass-initial world. -/
def scanDeletesOf (env : Env) (w : World) (c : String) : List (String × String × DeletionPolicy) :=
  if env.tenantListFails c then [] else scanDeletes env w.superStore c (w.tenantStore c)

/-- The upward-queue key, if any, that one sweep probe of cluster `c` for
super object `p` appends. -/
def probeAdds (env : Env) (w : World) (p : StorageClass) (c : String) : List (String × String) :=
  if env.probeFails c p.name then []
  else match findSC p.name (w.tenantStore c) with
    | some _ => []
    | none => [(c, p.name)]

/-- The upward-queue keys the trailing sweep appends, as a function of the
world the sweep starts from. -/
def sweepAddsOf (env : Env) (w : World) : List (String × String) :=
  w.superStore.flatMap (fun p =>
    if env.publicStorageClass p then env.clusterNames.flatMap (probeAdds env w p) else [])

/-- Projection of the world that forgets the error-log counter; used to
state that a failed tenant listing influences nothing but the logs. -/
structure Obs where
  superStore : List StorageClass
  tenantStore : String → List StorageClass
  drift : Nat
  upwardQueue : List (String × String)
  deletesAttempted : List (String × String × DeletionPolicy)
  deletedOrphanMetric : Nat
  requeuedMetric : Nat
  publishedGauge : Option Nat

/-- The log-free view of a world. -/
def World.obs (w : World) : Obs :=
  ⟨w.superStore, w.tenantStore, w.drift, w.upwardQueue, w.deletesAttempted,
   w.deletedOrphanMetric, w.requeuedMetric, w.publishedGauge⟩

/-! Concrete instances used to exercise the theorems on closed inputs. -/

/-- Super-side copy of object `a`. -/
def scA : StorageClass := ⟨"a", 0⟩

/-- Tenant-side copy of object `a` with a diverged payload. -/
def scA1 : StorageClass := ⟨"a", 1⟩

/-- An object named `c` with no super-side counterpart. -/
def scC : StorageClass := ⟨"c", 0⟩

/-- An environment in which every collaborator call succeeds, payload
difference is the equality diff, and objects named `a` are public. -/
def benignEnv : Env where
  clusterNames := ["t1"]
  superListFails := false
  superGetFails := fun _ => false
  tenantListFails := fun _ => false
  clientFails := fun _ => false
  deleteFails := fun _ _ => false
  probeFails := fun _ _ => false
  checkStorageClassEquality := fun p v => if p.payload == v.payload then none else some p
  publicStorageClass := fun sc => sc.name == "a"

/-- A world with empty caches and zeroed effects. -/
def baseWorld : World where
  superStore := []
  tenantStore := fun _ => []
  drift := 0
  upwardQueue := []
  deletesAttempted := []
  deletedOrphanMetric := 0
  requeuedMetric := 0
  publishedGauge := none
  errorLogs := 0

/-- World with super object `a` and a diverged tenant copy in `t1`. -/
def mismatchWorld : World :=
  { baseWorld with
      superStore := [scA],
      tenantStore := fun c => if c == "t1" then [scA1] else [] }

/-- World whose tenant `t1` holds the orphan object `c`. -/
def orphanWorld : World :=
  { baseWorld with tenantStore := fun c => if c == "t1" then [scC] else [] }

/-- Environment with no tenant clusters at all. -/
def emptyClustersEnv : Env := { benignEnv with clusterNames := [] }

/-- Environment in which listing the super master cache fails. -/
def superListFailsEnv : Env := { benignEnv with superListFails := true }

/-- Environment in which the tenant client can never be acquired. -/
def clientFailsEnv : Env := { benignEnv with clientFails := fun _ => true }

/-- Environment in which tenant `bad`'s object listing fails. -/
def badListEnv : Env :=
  { benignEnv with
      clusterNames := ["bad", "t1"],
      tenantListFails := fun c => c == "bad" }

/-- Environment with two tenant clusters, each holding a diverged copy of
object `a`. -/
def twoClusterEnv : Env := { benignEnv with clusterNames := ["t1", "t2"] }

/-- World in which both `t1` and `t2` hold a diverged copy of `a`. -/
def twoMismatchWorld : World :=
  { baseWorld with
      superStore := [scA],
      tenantStore := fun c => if c == "t1" || c == "t2" then [scA1] else [] }

/-! Basic lemmas about `findSC` and `superGet`. -/

lemma findSC_name {n : String} {l : List StorageClass} {sc : StorageClass}
    (h : findSC n l = some sc) : sc.name = n := by
  induction l with
  | nil => simp [findSC] at h
  | cons a rest ih =>
      rw [findSC] at h
      split at h
      next heq => injection h with h2; subst h2; exact heq
      next => exact ih h

lemma findSC_mem {n : String} {l : List StorageClass} {sc : StorageClass}
    (h : findSC n l = some sc) : sc ∈ l := by
  induction l with
  | nil => simp [findSC] at h
  | cons a rest ih =>
      rw [findSC] at h
      split at h
      next => injection h with h2; subst h2; exact List.mem_cons_self a rest
      next => exact List.mem_cons_of_mem a (ih h)

lemma findSC_eq_none {n : String} {l : List StorageClass} :
    findSC n l = none ↔ ∀ sc ∈ l, sc.name ≠ n := by
  induction l with
  | nil => simp [findSC]
  | cons a rest ih =>
      rw [findSC]
      split
      next heq => simp [heq]
      next hne => simp only [List.mem_cons]; constructor
                  · intro h sc hsc
                    rcases hsc with h1 | h2
                    · subst h1; exact hne
                    · exact (ih.mp h) sc h2
                  · intro h; exact ih.mpr (fun sc hsc => h sc (Or.inr hsc))

lemma findSC_isSome_of_mem {n : String} {l : List StorageClass} {v : StorageClass}
    (hv : v ∈ l) (hn : v.name = n) : (findSC n l).isSome = true := by
  induction l with
  | nil => simp at hv
  | cons a rest ih =>
      rw [findSC]
      split
      next => simp
      next hne =>
        rcases List.mem_cons.mp hv with h1 | h2
        · subst h1; exact absurd hn hne
        · exact ih h2

lemma findSC_filter_ne {n m : String} (hnm : n ≠ m) (l : List StorageClass) :
    findSC n (l.filter (fun sc => sc.name != m)) = findSC n l := by
  induction l with
  | nil => rfl
  | cons a rest ih =>
      by_cases ham : a.name = m
      · have : (a.name != m) = false := by simp [ham]
        rw [List.filter_cons, this]
        simp only [findSC]
        have hna : ¬ a.name = n := by rw [ham]; exact fun h => hnm h.symm
        rw [if_neg hna]
        exact ih
      · have : (a.name != m) = true := by simp [ham]
        rw [List.filter_cons, this]
        simp only [findSC, ih]

lemma superGet_found {env : Env} {store : List StorageClass} {n : String} {p : StorageClass}
    (h : superGet env store n = .found p) : findSC n store = some p := by
  unfold superGet at h
  split at h
  · exact absurd h (by simp)
  · split at h
    next heq => injection h with h2; subst h2; exact heq
    next => exact absurd h (by simp)

lemma superGet_notFound {env : Env} {store : List StorageClass} {n : String}
    (h : superGet env store n = .notFound) : findSC n store = none := by
  unfold superGet at h
  split at h
  · exact absurd h (by simp)
  · split at h
    next => exact absurd h (by simp)
    next heq => exact heq

/-! Per-field behaviour of `checkOne`. -/

lemma checkOne_superStore (env : Env) (cn : String) (v : StorageClass) (w : World) :
    (checkOne env cn v w).superStore = w.superStore := by
  unfold checkOne
  split
  · split
    · rfl
    · split <;> rfl
  · rfl
  · split
    · rfl
    · split <;> rfl

lemma checkOne_tenantStore_ne (env : Env) (cn : String) (v : StorageClass) (w : World)
    (c : String) (hc : ¬ c = cn) :
    (checkOne env cn v w).tenantStore c = w.tenantStore c := by
  unfold checkOne
  split
  · split
    · rfl
    · split
      · rfl
      · simp only; rw [if_neg hc]
  · rfl
  · split
    · rfl
    · split <;> rfl

lemma checkOne_tenantStore_sublist (env : Env) (cn : String) (v : StorageClass) (w : World)
    (c : String) :
    ((checkOne env cn v w).tenantStore c).Sublist (w.tenantStore c) := by
  unfold checkOne
  split
  · split
    · exact List.Sublist.refl _
    · split
      · exact List.Sublist.refl _
      · simp only
        split
        · exact List.filter_sublist _
        · exact List.Sublist.refl _
  · exact List.Sublist.refl _
  · split
    · exact List.Sublist.refl _
    · split <;> exact List.Sublist.refl _

lemma checkOne_queue (env : Env) (cn : String) (v : StorageClass) (w : World) :
    (checkOne env cn v w).upwardQueue =
      w.upwardQueue ++ (if enqueueCond env w.superStore v then [(cn, v.name)] else []) := by
  unfold checkOne
  split
  next heq =>
    have hcond : enqueueCond env w.superStore v = false := by
      simp [enqueueCond, heq]
    rw [hcond]
    split
    · simp
    · split <;> simp
  next heq =>
    have hcond : enqueueCond env w.superStore v = false := by
      simp [enqueueCond, heq]
    rw [hcond]
    simp
  next p heq =>
    split
    next he =>
      have hcond : enqueueCond env w.superStore v = false := by
        simp [enqueueCond, heq, he]
      rw [hcond]
      simp
    next u he =>
      split
      next hpub =>
        have hname : p.name = v.name := findSC_name (superGet_found heq)
        have hcond : enqueueCond env w.superStore v = true := by
          simp [enqueueCond, heq, he, hpub]
        rw [hcond]
        simp [hname]
      next hpub =>
        have hcond : enqueueCond env w.superStore v = false := by
          simp [enqueueCond, heq, he]
          exact Bool.not_eq_true _ ▸ hpub
        rw [hcond]
        simp

lemma checkOne_deletes (env : Env) (cn : String) (v : StorageClass) (w : World) :
    (checkOne env cn v w).deletesAttempted =
      w.deletesAttempted ++
        (if deleteCond env w.superStore cn v then [(cn, v.name, DefaultDeletionPolicy)] else []) := by
  unfold checkOne
  split
  next heq =>
    split
    next hcl =>
      have hcond : deleteCond env w.superStore cn v = false := by
        simp [deleteCond, heq, hcl]
      rw [hcond]
      simp
    next hcl =>
      have hcond : deleteCond env w.superStore cn v = true := by
        simp [deleteCond, heq]
        exact Bool.not_eq_true _ ▸ hcl
      rw [hcond]
      split <;> simp
  next heq =>
    have hcond : deleteCond env w.superStore cn v = false := by
      simp [deleteCond, heq]
    rw [hcond]
    simp
  next p heq =>
    have hcond : deleteCond env w.superStore cn v = false := by
      simp [deleteCond, heq]
    rw [hcond]
    split
    · simp
    · split <;> simp

lemma checkOne_drift (env : Env) (cn : String) (v : StorageClass) (w : World) :
    (checkOne env cn v w).drift =
      w.drift + (if driftCond env w.superStore v then 1 else 0) := by
  unfold checkOne
  split
  next heq =>
    have hcond : driftCond env w.superStore v = false := by
      simp [driftCond, heq]
    rw [hcond]
    split
    · simp
    · split <;> simp
  next heq =>
    have hcond : driftCond env w.superStore v = false := by
      simp [driftCond, heq]
    rw [hcond]
    simp
  next p heq =>
    split
    next he =>
      have hcond : driftCond env w.superStore v = false := by
        simp [driftCond, heq, he]
      rw [hcond]
      simp
    next u he =>
      have hcond : driftCond env w.superStore v = true := by
        simp [driftCond, heq, he]
      rw [hcond]
      split <;> simp

lemma checkOne_findSC_present (env : Env) (cn : String) (v : StorageClass) (w : World)
    {c n : String}
    (hsup : (findSC n w.superStore).isSome = true)
    (hten : (findSC n (w.tenantStore c)).isSome = true) :
    (findSC n ((checkOne env cn v w).tenantStore c)).isSome = true := by
  unfold checkOne
  split
  next heq =>
    split
    next => exact hten
    next =>
      split
      next => exact hten
      next =>
        simp only
        split
        next hc =>
          have hnone : findSC v.name w.superStore = none := superGet_notFound heq
          have hne : n ≠ v.name := by
            intro h
            rw [h] at hsup
            rw [hnone] at hsup
            simp at hsup
          rw [findSC_filter_ne hne]
          exact hten
        next => exact hten
  next => exact hten
  next p heq =>
    split
    next => exact hten
    next u he =>
      split <;> exact hten

lemma checkOne_obs_shift (env : Env) (cn : String) (v : StorageClass) (w : World) (e : Nat) :
    (checkOne env cn v { w with errorLogs := e }).obs = (checkOne env cn v w).obs := by
  cases hsg : superGet env w.superStore v.name with
  | notFound =>
      cases hcl : env.clientFails cn with
      | true => simp [checkOne, hsg, hcl, World.obs]
      | false =>
          cases hdf : env.deleteFails cn v.name with
          | true => simp [checkOne, hsg, hcl, hdf, World.obs]
          | false => simp [checkOne, hsg, hcl, hdf, World.obs]
  | otherError => simp [checkOne, hsg, World.obs]
  | found p =>
      cases he : env.checkStorageClassEquality p v with
      | none => simp [checkOne, hsg, he, World.obs]
      | some u =>
          cases hp : env.publicStorageClass p with
          | true => simp [checkOne, hsg, he, hp, World.obs]
          | false => simp [checkOne, hsg, he, hp, World.obs]

lemma World.obs_ext {w₁ w₂ : World} (h : w₁.obs = w₂.obs) :
    w₂ = { w₁ with errorLogs := w₂.errorLogs } := by
  cases w₁
  cases w₂
  simp [World.obs] at h
  simp_all

lemma checkOne_obs_congr (env : Env) (cn : String) (v : StorageClass) {w₁ w₂ : World}
    (h : w₁.obs = w₂.obs) :
    (checkOne env cn v w₁).obs = (checkOne env cn v w₂).obs := by
  rw [World.obs_ext h]
  exact (checkOne_obs_shift env cn v w₁ w₂.errorLogs).symm

lemma obs_superStore {w₁ w₂ : World} (h : w₁.obs = w₂.obs) :
    w₁.superStore = w₂.superStore := congrArg Obs.superStore h

lemma obs_tenantStore {w₁ w₂ : World} (h : w₁.obs = w₂.obs) :
    w₁.tenantStore = w₂.tenantStore := congrArg Obs.tenantStore h

lemma obs_logShift (w : World) (e : Nat) : World.obs { w with errorLogs := e } = w.obs := rfl

/-! Lemmas about the per-item loop `scanFold`. -/

lemma scanFold_nil (env : Env) (cn : String) (w : World) : scanFold env cn [] w = w := rfl

lemma scanFold_cons (env : Env) (cn : String) (v : StorageClass) (rest : List StorageClass)
    (w : World) :
    scanFold env cn (v :: rest) w = scanFold env cn rest (checkOne env cn v w) := rfl

lemma scanEnqueues_cons (env : Env) (store : List StorageClass) (cn : String)
    (v : StorageClass) (rest : List StorageClass) :
    scanEnqueues env store cn (v :: rest) =
      (if enqueueCond env store v then [(cn, v.name)] else []) ++ scanEnqueues env store cn rest := by
  unfold scanEnqueues
  rw [List.filterMap_cons]
  split <;> simp_all

lemma scanDeletes_cons (env : Env) (store : List StorageClass) (cn : String)
    (v : StorageClass) (rest : List StorageClass) :
    scanDeletes env store cn (v :: rest) =
      (if deleteCond env store cn v then [(cn, v.name, DefaultDeletionPolicy)] else []) ++
        scanDeletes env store cn rest := by
  unfold scanDeletes
  rw [List.filterMap_cons]
  split <;> simp_all

lemma scanFold_superStore (env : Env) (cn : String) (items : List StorageClass) (w : World) :
    (scanFold env cn items w).superStore = w.superStore := by
  induction items generalizing w with
  | nil => rfl
  | cons v rest ih => rw [scanFold_cons, ih, checkOne_superStore]

lemma scanFold_tenantStore_ne (env : Env) (cn : String) (items : List StorageClass) (w : World)
    (c : String) (hc : ¬ c = cn) :
    (scanFold env cn items w).tenantStore c = w.tenantStore c := by
  induction items generalizing w with
  | nil => rfl
  | cons v rest ih => rw [scanFold_cons, ih, checkOne_tenantStore_ne _ _ _ _ _ hc]

lemma scanFold_tenantStore_sublist (env : Env) (cn : String) (items : List StorageClass)
    (w : World) (c : String) :
    ((scanFold env cn items w).tenantStore c).Sublist (w.tenantStore c) := by
  induction items generalizing w with
  | nil => exact List.Sublist.refl _
  | cons v rest ih =>
      rw [scanFold_cons]
      exact (ih _).trans (checkOne_tenantStore_sublist env cn v w c)

lemma scanFold_queue (env : Env) (cn : String) (items : List StorageClass) (w : World) :
    (scanFold env cn items w).upwardQueue =
      w.upwardQueue ++ scanEnqueues env w.superStore cn items := by
  induction items generalizing w with
  | nil => simp [scanFold_nil, scanEnqueues]
  | cons v rest ih =>
      rw [scanFold_cons, ih, checkOne_superStore, checkOne_queue, scanEnqueues_cons,
        List.append_assoc]

lemma scanFold_deletes (env : Env) (cn : String) (items : List StorageClass) (w : World) :
    (scanFold env cn items w).deletesAttempted =
      w.deletesAttempted ++ scanDeletes env w.superStore cn items := by
  induction items generalizing w with
  | nil => simp [scanFold_nil, scanDeletes]
  | cons v rest ih =>
      rw [scanFold_cons, ih, checkOne_superStore, checkOne_deletes, scanDeletes_cons,
        List.append_assoc]

lemma scanFold_drift (env : Env) (cn : String) (items : List StorageClass) (w : World) :
    (scanFold env cn items w).drift = w.drift + scanDrift env w.superStore items := by
  induction items generalizing w with
  | nil => simp [scanFold_nil, scanDrift]
  | cons v rest ih =>
      rw [scanFold_cons, ih, checkOne_superStore, checkOne_drift]
      unfold scanDrift
      rw [List.countP_cons]
      split <;> omega

lemma scanFold_findSC_present (env : Env) (cn : String) (items : List StorageClass) (w : World)
    {c n : String}
    (hsup : (findSC n w.superStore).isSome = true)
    (hten : (findSC n (w.tenantStore c)).isSome = true) :
    (findSC n ((scanFold env cn items w).tenantStore c)).isSome = true := by
  induction items generalizing w with
  | nil => exact hten
  | cons v rest ih =>
      rw [scanFold_cons]
      exact ih (checkOne env cn v w)
        (by rw [checkOne_superStore]; exact hsup)
        (checkOne_findSC_present env cn v w hsup hten)

lemma scanFold_obs_congr (env : Env) (cn : String) (items : List StorageClass) {w₁ w₂ : World}
    (h : w₁.obs = w₂.obs) :
    (scanFold env cn items w₁).obs = (scanFold env cn items w₂).obs := by
  induction items generalizing w₁ w₂ with
  | nil => exact h
  | cons v rest ih => rw [scanFold_cons, scanFold_cons]; exact ih (checkOne_obs_congr env cn v h)

/-! Lemmas about one tenant cluster's scan. -/

lemma scan_failed (env : Env) (cn : String) (w : World)
    (h : env.tenantListFails cn = true) :
    checkStorageClassOfTenantCluster env cn w = { w with errorLogs := w.errorLogs + 1 } := by
  simp [checkStorageClassOfTenantCluster, h]

lemma scan_ok (env : Env) (cn : String) (w : World)
    (h : env.tenantListFails cn = false) :
    checkStorageClassOfTenantCluster env cn w = scanFold env cn (w.tenantStore cn) w := by
  simp [checkStorageClassOfTenantCluster, h]

lemma scan_superStore (env : Env) (cn : String) (w : World) :
    (checkStorageClassOfTenantCluster env cn w).superStore = w.superStore := by
  cases h : env.tenantListFails cn with
  | true => rw [scan_failed env cn w h]
  | false => rw [scan_ok env cn w h, scanFold_superStore]

lemma scan_tenantStore_ne (env : Env) (cn : String) (w : World) (c : String) (hc : ¬ c = cn) :
    (checkStorageClassOfTenantCluster env cn w).tenantStore c = w.tenantStore c := by
  cases h : env.tenantListFails cn with
  | true => rw [scan_failed env cn w h]
  | false => rw [scan_ok env cn w h, scanFold_tenantStore_ne _ _ _ _ _ hc]

lemma scan_tenantStore_sublist (env : Env) (cn : String) (w : World) (c : String) :
    ((checkStorageClassOfTenantCluster env cn w).tenantStore c).Sublist (w.tenantStore c) := by
  cases h : env.tenantListFails cn with
  | true => rw [scan_failed env cn w h]
  | false => rw [scan_ok env cn w h]; exact scanFold_tenantStore_sublist env cn _ w c

lemma scan_queue (env : Env) (cn : String) (w : World) :
    (checkStorageClassOfTenantCluster env cn w).upwardQueue =
      w.upwardQueue ++ scanAddsOf env w cn := by
  cases h : env.tenantListFails cn with
  | true => rw [scan_failed env cn w h]; simp [scanAddsOf, h]
  | false => rw [scan_ok env cn w h, scanFold_queue]; simp [scanAddsOf, h]

lemma scan_deletes (env : Env) (cn : String) (w : World) :
    (checkStorageClassOfTenantCluster env cn w).deletesAttempted =
      w.deletesAttempted ++ scanDeletesOf env w cn := by
  cases h : env.tenantListFails cn with
  | true => rw [scan_failed env cn w h]; simp [scanDeletesOf, h]
  | false => rw [scan_ok env cn w h, scanFold_deletes]; simp [scanDeletesOf, h]

lemma scan_drift (env : Env) (cn : String) (w : World) :
    (checkStorageClassOfTenantCluster env cn w).drift = w.drift + clusterDriftOf env w cn := by
  cases h : env.tenantListFails cn with
  | true => rw [scan_failed env cn w h]; simp [clusterDriftOf, h]
  | false => rw [scan_ok env cn w h, scanFold_drift]; simp [clusterDriftOf, h]

lemma scan_findSC_present (env : Env) (cn : String) (w : World) {c n : String}
    (hsup : (findSC n w.superStore).isSome = true)
    (hten : (findSC n (w.tenantStore c)).isSome = true) :
    (findSC n ((checkStorageClassOfTenantCluster env cn w).tenantStore c)).isSome = true := by
  cases h : env.tenantListFails cn with
  | true => rw [scan_failed env cn w h]; exact hten
  | false => rw [scan_ok env cn w h]; exact scanFold_findSC_present env cn _ w hsup hten

lemma scan_obs_congr (env : Env) (cn : String) {w₁ w₂ : World} (h : w₁.obs = w₂.obs) :
    (checkStorageClassOfTenantCluster env cn w₁).obs =
      (checkStorageClassOfTenantCluster env cn w₂).obs := by
  cases hf : env.tenantListFails cn with
  | true => rw [scan_failed env cn w₁ hf, scan_failed env cn w₂ hf, obs_logShift, obs_logShift]
            exact h
  | false =>
      rw [scan_ok env cn w₁ hf, scan_ok env cn w₂ hf]
      have ht : w₁.tenantStore cn = w₂.tenantStore cn :=
        congrFun (obs_tenantStore h) cn
      rw [ht]
      exact scanFold_obs_congr env cn _ h

/-! Lemmas about the scan phase (the fan-out over all tenant clusters). -/

lemma scanPhase_nil (env : Env) (w : World) : scanPhase env [] w = w := rfl

lemma scanPhase_cons (env : Env) (c : String) (rest : List String) (w : World) :
    scanPhase env (c :: rest) w =
      scanPhase env rest (checkStorageClassOfTenantCluster env c w) := rfl

lemma flatMap_congr {α β : Type} {l : List α} {f g : α → List β}
    (h : ∀ a ∈ l, f a = g a) : l.flatMap f = l.flatMap g := by
  induction l with
  | nil => rfl
  | cons a rest ih =>
      rw [List.flatMap_cons, List.flatMap_cons, h a (List.mem_cons_self a rest),
        ih (fun b hb => h b (List.mem_cons_of_mem a hb))]

lemma scanAddsOf_eq {env : Env} {w' w : World} {c : String}
    (h1 : w'.superStore = w.superStore) (h2 : w'.tenantStore c = w.tenantStore c) :
    scanAddsOf env w' c = scanAddsOf env w c := by
  unfold scanAddsOf
  rw [h1, h2]

lemma clusterDriftOf_eq {env : Env} {w' w : World} {c : String}
    (h1 : w'.superStore = w.superStore) (h2 : w'.tenantStore c = w.tenantStore c) :
    clusterDriftOf env w' c = clusterDriftOf env w c := by
  unfold clusterDriftOf
  rw [h1, h2]

lemma scanPhase_superStore (env : Env) (l : List String) (w : World) :
    (scanPhase env l w).superStore = w.superStore := by
  induction l generalizing w with
  | nil => rfl
  | cons c rest ih => rw [scanPhase_cons, ih, scan_superStore]

lemma scanPhase_tenantStore_notmem (env : Env) (l : List String) (w : World) (c : String)
    (hc : ¬ c ∈ l) :
    (scanPhase env l w).tenantStore c = w.tenantStore c := by
  induction l generalizing w with
  | nil => rfl
  | cons a rest ih =>
      rw [scanPhase_cons, ih _ (fun h => hc (List.mem_cons_of_mem a h)),
        scan_tenantStore_ne env a w c (fun h => hc (h ▸ List.mem_cons_self a rest))]

lemma scanPhase_queue (env : Env) (l : List String) (w : World) (hl : l.Nodup) :
    (scanPhase env l w).upwardQueue = w.upwardQueue ++ l.flatMap (scanAddsOf env w) := by
  induction l generalizing w with
  | nil => simp [scanPhase_nil]
  | cons c rest ih =>
      have hrest : rest.Nodup := (List.nodup_cons.mp hl).2
      have hcnot : ¬ c ∈ rest := (List.nodup_cons.mp hl).1
      rw [scanPhase_cons, ih _ hrest, scan_queue, List.flatMap_cons, List.append_assoc]
      congr 1
      congr 1
      refine flatMap_congr (fun a ha => ?_)
      refine scanAddsOf_eq (scan_superStore env c w) ?_
      exact scan_tenantStore_ne env c w a (fun h => hcnot (h ▸ ha))

lemma scanPhase_drift (env : Env) (l : List String) (w : World) (hl : l.Nodup) :
    (scanPhase env l w).drift = w.drift + (l.map (clusterDriftOf env w)).sum := by
  induction l generalizing w with
  | nil => simp [scanPhase_nil]
  | cons c rest ih =>
      have hrest : rest.Nodup := (List.nodup_cons.mp hl).2
      have hcnot : ¬ c ∈ rest := (List.nodup_cons.mp hl).1
      rw [scanPhase_cons, ih _ hrest, scan_drift, List.map_cons, List.sum_cons]
      have hcongr : rest.map (clusterDriftOf env (checkStorageClassOfTenantCluster env c w)) =
          rest.map (clusterDriftOf env w) := by
        refine List.map_congr_left (fun a ha => ?_)
        refine clusterDriftOf_eq (scan_superStore env c w) ?_
        exact scan_tenantStore_ne env c w a (fun h => hcnot (h ▸ ha))
      rw [hcongr]
      omega

lemma scanPhase_findSC_present (env : Env) (l : List String) (w : World) {c n : String}
    (hsup : (findSC n w.superStore).isSome = true)
    (hten : (findSC n (w.tenantStore c)).isSome = true) :
    (findSC n ((scanPhase env l w).tenantStore c)).isSome = true := by
  induction l generalizing w with
  | nil => exact hten
  | cons a rest ih =>
      rw [scanPhase_cons]
      exact ih _ (by rw [scan_superStore]; exact hsup) (scan_findSC_present env a w hsup hten)

lemma scanPhase_obs_congr (env : Env) (l : List String) {w₁ w₂ : World} (h : w₁.obs = w₂.obs) :
    (scanPhase env l w₁).obs = (scanPhase env l w₂).obs := by
  induction l generalizing w₁ w₂ with
  | nil => exact h
  | cons a rest ih => rw [scanPhase_cons, scanPhase_cons]; exact ih (scan_obs_congr env a h)

/-! Lemmas about the trailing super-side sweep. -/

lemma sweepProbe_frame (env : Env) (p : StorageClass) (cn : String) (w : World) :
    (sweepProbe env p cn w).superStore = w.superStore ∧
    (sweepProbe env p cn w).tenantStore = w.tenantStore ∧
    (sweepProbe env p cn w).drift = w.drift ∧
    (sweepProbe env p cn w).deletesAttempted = w.deletesAttempted ∧
    (sweepProbe env p cn w).deletedOrphanMetric = w.deletedOrphanMetric ∧
    (sweepProbe env p cn w).publishedGauge = w.publishedGauge := by
  unfold sweepProbe
  split
  · exact ⟨rfl, rfl, rfl, rfl, rfl, rfl⟩
  · split <;> exact ⟨rfl, rfl, rfl, rfl, rfl, rfl⟩

lemma sweepProbe_queue (env : Env) (p : StorageClass) (cn : String) (w : World) :
    (sweepProbe env p cn w).upwardQueue = w.upwardQueue ++ probeAdds env w p cn := by
  unfold sweepProbe probeAdds
  split
  · simp
  · split <;> simp

lemma sweepClusterFold_nil (env : Env) (p : StorageClass) (w : World) :
    sweepClusterFold env p [] w = w := rfl

lemma sweepClusterFold_cons (env : Env) (p : StorageClass) (c : String) (rest : List String)
    (w : World) :
    sweepClusterFold env p (c :: rest) w = sweepClusterFold env p rest (sweepProbe env p c w) :=
  rfl

lemma sweepClusterFold_frame (env : Env) (p : StorageClass) (cs : List String) (w : World) :
    (sweepClusterFold env p cs w).superStore = w.superStore ∧
    (sweepClusterFold env p cs w).tenantStore = w.tenantStore ∧
    (sweepClusterFold env p cs w).drift = w.drift ∧
    (sweepClusterFold env p cs w).deletesAttempted = w.deletesAttempted ∧
    (sweepClusterFold env p cs w).deletedOrphanMetric = w.deletedOrphanMetric ∧
    (sweepClusterFold env p cs w).publishedGauge = w.publishedGauge := by
  induction cs generalizing w with
  | nil => exact ⟨rfl, rfl, rfl, rfl, rfl, rfl⟩
  | cons c rest ih =>
      rw [sweepClusterFold_cons]
      obtain ⟨a1, a2, a3, a4, a5, a6⟩ := ih (sweepProbe env p c w)
      obtain ⟨b1, b2, b3, b4, b5, b6⟩ := sweepProbe_frame env p c w
      exact ⟨a1.trans b1, a2.trans b2, a3.trans b3, a4.trans b4, a5.trans b5, a6.trans b6⟩

lemma probeAdds_eq {env : Env} {w' w : World} {p : StorageClass} {c : String}
    (h : w'.tenantStore = w.tenantStore) :
    probeAdds env w' p c = probeAdds env w p c := by
  unfold probeAdds
  rw [h]

lemma sweepClusterFold_queue (env : Env) (p : StorageClass) (cs : List String) (w : World) :
    (sweepClusterFold env p cs w).upwardQueue =
      w.upwardQueue ++ cs.flatMap (probeAdds env w p) := by
  induction cs generalizing w with
  | nil => simp [sweepClusterFold_nil]
  | cons c rest ih =>
      rw [sweepClusterFold_cons, ih, sweepProbe_queue, List.flatMap_cons, List.append_assoc]
      congr 1
      congr 1
      exact flatMap_congr (fun a _ =>
        probeAdds_eq (sweepProbe_frame env p c w).2.1)

lemma sweepSuper_frame (env : Env) (p : StorageClass) (w : World) :
    (sweepSuper env p w).superStore = w.superStore ∧
    (sweepSuper env p w).tenantStore = w.tenantStore ∧
    (sweepSuper env p w).drift = w.drift ∧
    (sweepSuper env p w).deletesAttempted = w.deletesAttempted ∧
    (sweepSuper env p w).deletedOrphanMetric = w.deletedOrphanMetric ∧
    (sweepSuper env p w).publishedGauge = w.publishedGauge := by
  unfold sweepSuper
  split
  · exact sweepClusterFold_frame env p env.clusterNames w
  · exact ⟨rfl, rfl, rfl, rfl, rfl, rfl⟩

lemma sweepSuper_queue (env : Env) (p : StorageClass) (w : World) :
    (sweepSuper env p w).upwardQueue =
      w.upwardQueue ++
        (if env.publicStorageClass p then env.clusterNames.flatMap (probeAdds env w p)
         else []) := by
  unfold sweepSuper
  split
  · rw [sweepClusterFold_queue]
  · simp

lemma sweepFold_nil (env : Env) (w : World) : sweepFold env [] w = w := rfl

lemma sweepFold_cons (env : Env) (p : StorageClass) (rest : List StorageClass) (w : World) :
    sweepFold env (p :: rest) w = sweepFold env rest (sweepSuper env p w) := rfl

lemma sweepFold_frame (env : Env) (ps : List StorageClass) (w : World) :
    (sweepFold env ps w).superStore = w.superStore ∧
    (sweepFold env ps w).tenantStore = w.tenantStore ∧
    (sweepFold env ps w).drift = w.drift ∧
    (sweepFold env ps w).deletesAttempted = w.deletesAttempted ∧
    (sweepFold env ps w).deletedOrphanMetric = w.deletedOrphanMetric ∧
    (sweepFold env ps w).publishedGauge = w.publishedGauge := by
  induction ps generalizing w with
  | nil => exact ⟨rfl, rfl, rfl, rfl, rfl, rfl⟩
  | cons p rest ih =>
      rw [sweepFold_cons]
      obtain ⟨a1, a2, a3, a4, a5, a6⟩ := ih (sweepSuper env p w)
      obtain ⟨b1, b2, b3, b4, b5, b6⟩ := sweepSuper_frame env p w
      exact ⟨a1.trans b1, a2.trans b2, a3.trans b3, a4.trans b4, a5.trans b5, a6.trans b6⟩

lemma sweepFold_queue (env : Env) (ps : List StorageClass) (w : World) :
    (sweepFold env ps w).upwardQueue =
      w.upwardQueue ++
        ps.flatMap (fun p =>
          if env.publicStorageClass p then env.clusterNames.flatMap (probeAdds env w p)
          else []) := by
  induction ps generalizing w with
  | nil => simp [sweepFold_nil]
  | cons p rest ih =>
      rw [sweepFold_cons, ih, sweepSuper_queue, List.flatMap_cons, List.append_assoc]
      congr 1
      congr 1
      refine flatMap_congr (fun q _ => ?_)
      have ht : (sweepSuper env p w).tenantStore = w.tenantStore := (sweepSuper_frame env p w).2.1
      split
      · exact flatMap_congr (fun c _ => probeAdds_eq ht)
      · rfl

lemma sweepPhase_queue (env : Env) (w : World) :
    (sweepPhase env w).upwardQueue = w.upwardQueue ++ sweepAddsOf env w := by
  unfold sweepPhase sweepAddsOf
  exact sweepFold_queue env w.superStore w

lemma sweepPhase_frame (env : Env) (w : World) :
    (sweepPhase env w).superStore = w.superStore ∧
    (sweepPhase env w).tenantStore = w.tenantStore ∧
    (sweepPhase env w).drift = w.drift ∧
    (sweepPhase env w).deletesAttempted = w.deletesAttempted ∧
    (sweepPhase env w).deletedOrphanMetric = w.deletedOrphanMetric ∧
    (sweepPhase env w).publishedGauge = w.publishedGauge := by
  unfold sweepPhase
  exact sweepFold_frame env w.superStore w

/-! Unfolding lemmas for `PatrollerDo`. -/

lemma PatrollerDo_noClusters (env : Env) (w : World) (h : env.clusterNames = []) :
    PatrollerDo env w = w := by
  simp [PatrollerDo, h]

lemma PatrollerDo_listFails (env : Env) (w : World)
    (h1 : env.clusterNames.isEmpty = false) (h2 : env.superListFails = true) :
    PatrollerDo env w =
      { scanPhase env env.clusterNames { w with drift := 0 } with
          errorLogs := (scanPhase env env.clusterNames { w with drift := 0 }).errorLogs + 1 } := by
  simp [PatrollerDo, h1, h2]

lemma PatrollerDo_ok (env : Env) (w : World)
    (h1 : env.clusterNames.isEmpty = false) (h2 : env.superListFails = false) :
    PatrollerDo env w =
      { sweepPhase env (scanPhase env env.clusterNames { w with drift := 0 }) with
          publishedGauge :=
            some (sweepPhase env (scanPhase env env.clusterNames { w with drift := 0 })).drift } := by
  simp [PatrollerDo, h1, h2]

/-! Counting helpers for the at-most-one-enqueue argument. -/

lemma count_flatMap_sum {α β : Type} [BEq β] (l : List α) (f : α → List β) (k : β) :
    (l.flatMap f).count k = (l.map (fun a => (f a).count k)).sum := by
  induction l with
  | nil => rfl
  | cons a rest ih =>
      rw [List.flatMap_cons, List.count_append, List.map_cons, List.sum_cons, ih]

lemma sum_le_one_of_unique {α : Type} (l : List α) (g : α → String)
    (hg : (l.map g).Nodup) (f : α → Nat) (n : String)
    (h0 : ∀ x ∈ l, ¬ g x = n → f x = 0) (h1 : ∀ x ∈ l, f x ≤ 1) :
    (l.map f).sum ≤ 1 := by
  induction l with
  | nil => simp
  | cons x rest ih =>
      rw [List.map_cons, List.sum_cons]
      rw [List.map_cons] at hg
      have hx := List.nodup_cons.mp hg
      by_cases hgx : g x = n
      · have hz : (rest.map f).sum = 0 := by
          apply List.sum_eq_zero
          intro m hm
          rcases List.mem_map.mp hm with ⟨y, hy, rfl⟩
          apply h0 y (List.mem_cons_of_mem x hy)
          intro hgy
          exact hx.1 (by rw [hgx, ← hgy]; exact List.mem_map_of_mem g hy)
        rw [hz]
        have := h1 x (List.mem_cons_self x rest)
        omega
      · rw [h0 x (List.mem_cons_self x rest) hgx]
        have := ih hx.2 (fun y hy => h0 y (List.mem_cons_of_mem x hy))
          (fun y hy => h1 y (List.mem_cons_of_mem x hy))
        omega

lemma enqueueCond_found {env : Env} {store : List StorageClass} {v : StorageClass}
    (h : enqueueCond env store v = true) :
    ∃ p, superGet env store v.name = .found p ∧
      (env.checkStorageClassEquality p v).isSome = true ∧ env.publicStorageClass p = true := by
  unfold enqueueCond at h
  split at h
  next p heq => exact ⟨p, heq, (Bool.and_eq_true _ _).mp h⟩
  next => exact absurd h (by simp)

lemma mem_scanEnqueues {env : Env} {store : List StorageClass} {c : String}
    {items : List StorageClass} {k : String × String}
    (h : k ∈ scanEnqueues env store c items) :
    ∃ v ∈ items, k = (c, v.name) ∧ enqueueCond env store v = true := by
  unfold scanEnqueues at h
  rcases List.mem_filterMap.mp h with ⟨v, hv, he⟩
  split at he
  next hc => exact ⟨v, hv, by injection he with h2; exact h2.symm, hc⟩
  next => exact absurd he (by simp)

lemma count_scanEnqueues_le (env : Env) (store : List StorageClass) (c : String)
    (items : List StorageClass) (hnd : (items.map StorageClass.name).Nodup)
    (k : String × String) :
    (scanEnqueues env store c items).count k ≤ 1 := by
  induction items with
  | nil => simp [scanEnqueues]
  | cons v rest ih =>
      rw [List.map_cons] at hnd
      have hv := List.nodup_cons.mp hnd
      rw [scanEnqueues_cons, List.count_append]
      split
      · by_cases hk : k = (c, v.name)
        · subst hk
          have hz : (scanEnqueues env store c rest).count (c, v.name) = 0 := by
            rw [List.count_eq_zero]
            intro hmem
            rcases mem_scanEnqueues hmem with ⟨u, hu, hku, _⟩
            have : v.name = u.name := congrArg Prod.snd hku
            exact hv.1 (this ▸ List.mem_map_of_mem StorageClass.name hu)
          rw [hz]
          simp
        · have h1 : ([(c, v.name)] : List (String × String)).count k = 0 := by
            rw [List.count_eq_zero]
            simp [hk]
          rw [h1]
          have := ih hv.2
          omega
      · simp only [List.count_nil, Nat.zero_add]
        exact ih hv.2

lemma mem_scanAddsOf {env : Env} {w : World} {c : String} {k : String × String}
    (h : k ∈ scanAddsOf env w c) :
    env.tenantListFails c = false ∧
      ∃ v ∈ w.tenantStore c, k = (c, v.name) ∧ enqueueCond env w.superStore v = true := by
  unfold scanAddsOf at h
  split at h
  next => simp at h
  next hf => exact ⟨Bool.not_eq_true _ ▸ (by simp_all), mem_scanEnqueues h⟩

lemma count_scanAddsFlat_le (env : Env) (w : World) (k : String × String)
    (hcl : env.clusterNames.Nodup)
    (hnd : ∀ c, ((w.tenantStore c).map StorageClass.name).Nodup) :
    (env.clusterNames.flatMap (scanAddsOf env w)).count k ≤ 1 := by
  rw [count_flatMap_sum]
  have hg : (env.clusterNames.map (fun c => c)).Nodup := by
    simpa using hcl
  refine sum_le_one_of_unique env.clusterNames (fun c => c) hg
    (fun c => (scanAddsOf env w c).count k) k.1 ?_ ?_
  · intro c _ hc
    rw [List.count_eq_zero]
    intro hmem
    rcases mem_scanAddsOf hmem with ⟨_, v, _, hk, _⟩
    exact hc (congrArg Prod.fst hk).symm
  · intro c _
    dsimp only
    unfold scanAddsOf
    split
    · simp
    · exact count_scanEnqueues_le env w.superStore c _ (hnd c) k

lemma mem_probeAdds {env : Env} {w : World} {p : StorageClass} {c : String}
    {k : String × String} (h : k ∈ probeAdds env w p c) :
    k = (c, p.name) ∧ env.probeFails c p.name = false ∧
      findSC p.name (w.tenantStore c) = none := by
  unfold probeAdds at h
  split at h
  next => simp at h
  next hf =>
    split at h
    next => simp at h
    next hn =>
      refine ⟨by simpa using h, by simp_all, hn⟩

lemma mem_sweepAddsOf {env : Env} {w : World} {k : String × String}
    (h : k ∈ sweepAddsOf env w) :
    ∃ p ∈ w.superStore, env.publicStorageClass p = true ∧
      ∃ c ∈ env.clusterNames, k = (c, p.name) ∧ env.probeFails c p.name = false ∧
        findSC p.name (w.tenantStore c) = none := by
  unfold sweepAddsOf at h
  rcases List.mem_flatMap.mp h with ⟨p, hp, hin⟩
  split at hin
  next hpub =>
    rcases List.mem_flatMap.mp hin with ⟨c, hc, hk⟩
    rcases mem_probeAdds hk with ⟨h1, h2, h3⟩
    exact ⟨p, hp, hpub, c, hc, h1, h2, h3⟩
  next => simp at hin

lemma count_probeAddsFlat_le (env : Env) (w : World) (p : StorageClass) (k : String × String)
    (hcl : env.clusterNames.Nodup) :
    (env.clusterNames.flatMap (probeAdds env w p)).count k ≤ 1 := by
  rw [count_flatMap_sum]
  have hg : (env.clusterNames.map (fun c => c)).Nodup := by simpa using hcl
  refine sum_le_one_of_unique env.clusterNames (fun c => c) hg
    (fun c => (probeAdds env w p c).count k) k.1 ?_ ?_
  · intro c _ hc
    rw [List.count_eq_zero]
    intro hmem
    exact hc (congrArg Prod.fst (mem_probeAdds hmem).1).symm
  · intro c _
    dsimp only
    unfold probeAdds
    split
    · simp
    · split
      · simp
      · simp [List.count_cons]
        split <;> simp

lemma count_sweepAddsOf_le (env : Env) (w : World) (k : String × String)
    (hcl : env.clusterNames.Nodup)
    (hsup : (w.superStore.map StorageClass.name).Nodup) :
    (sweepAddsOf env w).count k ≤ 1 := by
  unfold sweepAddsOf
  rw [count_flatMap_sum]
  refine sum_le_one_of_unique w.superStore StorageClass.name hsup
    (fun p => ((if env.publicStorageClass p then
      env.clusterNames.flatMap (probeAdds env w p) else []).count k)) k.2 ?_ ?_
  · intro p _ hp
    rw [List.count_eq_zero]
    intro hmem
    split at hmem
    next =>
      rcases List.mem_flatMap.mp hmem with ⟨c, _, hin⟩
      exact hp (congrArg Prod.snd (mem_probeAdds hin).1).symm
    next => simp at hmem
  · intro p _
    dsimp only
    split
    · exact count_probeAddsFlat_le env w p k hcl
    · simp

/-! Remaining helper lemmas. -/

lemma checkOne_publishedGauge (env : Env) (cn : String) (v : StorageClass) (w : World) :
    (checkOne env cn v w).publishedGauge = w.publishedGauge := by
  unfold checkOne
  split
  · split
    · rfl
    · split <;> rfl
  · rfl
  · split
    · rfl
    · split <;> rfl

lemma scanFold_publishedGauge (env : Env) (cn : String) (items : List StorageClass) (w : World) :
    (scanFold env cn items w).publishedGauge = w.publishedGauge := by
  induction items generalizing w with
  | nil => rfl
  | cons v rest ih => rw [scanFold_cons, ih, checkOne_publishedGauge]

lemma scan_publishedGauge (env : Env) (cn : String) (w : World) :
    (checkStorageClassOfTenantCluster env cn w).publishedGauge = w.publishedGauge := by
  cases h : env.tenantListFails cn with
  | true => rw [scan_failed env cn w h]
  | false => rw [scan_ok env cn w h, scanFold_publishedGauge]

lemma scanPhase_publishedGauge (env : Env) (l : List String) (w : World) :
    (scanPhase env l w).publishedGauge = w.publishedGauge := by
  induction l generalizing w with
  | nil => rfl
  | cons c rest ih => rw [scanPhase_cons, ih, scan_publishedGauge]

lemma mem_scanDeletes {env : Env} {store : List StorageClass} {c : String}
    {items : List StorageClass} {k : String × String × DeletionPolicy}
    (h : k ∈ scanDeletes env store c items) :
    ∃ v ∈ items, k = (c, v.name, DefaultDeletionPolicy) ∧ deleteCond env store c v = true := by
  unfold scanDeletes at h
  rcases List.mem_filterMap.mp h with ⟨v, hv, he⟩
  split at he
  next hc => exact ⟨v, hv, by injection he with h2; exact h2.symm, hc⟩
  next => exact absurd he (by simp)

lemma count_scanDeletes_one {env : Env} {store : List StorageClass} {c : String}
    {items : List StorageClass} {v : StorageClass}
    (hnd : (items.map StorageClass.name).Nodup) (hv : v ∈ items)
    (hc : deleteCond env store c v = true) :
    (scanDeletes env store c items).count (c, v.name, DefaultDeletionPolicy) = 1 := by
  induction items with
  | nil => simp at hv
  | cons u rest ih =>
      rw [List.map_cons] at hnd
      have hu := List.nodup_cons.mp hnd
      rw [scanDeletes_cons, List.count_append]
      rcases List.mem_cons.mp hv with rfl | hvrest
      · rw [if_pos hc]
        have hz : (scanDeletes env store c rest).count (c, v.name, DefaultDeletionPolicy) = 0 := by
          rw [List.count_eq_zero]
          intro hm
          rcases mem_scanDeletes hm with ⟨y, hy, hk, _⟩
          have : v.name = y.name := congrArg (fun t => t.2.1) hk
          exact hu.1 (this ▸ List.mem_map_of_mem StorageClass.name hy)
        rw [hz]
        simp
      · have hneq : ¬ u.name = v.name := by
          intro hsame
          exact hu.1 (hsame ▸ List.mem_map_of_mem StorageClass.name hvrest)
        split
        · have hcnt : ([(c, u.name, DefaultDeletionPolicy)] :
              List (String × String × DeletionPolicy)).count (c, v.name, DefaultDeletionPolicy)
                = 0 := by
            rw [List.count_eq_zero]
            intro hm
            rw [List.mem_singleton] at hm
            exact hneq (congrArg (fun t => t.2.1) hm).symm
          rw [hcnt, ih hu.2 hvrest]
        · rw [List.count_nil, ih hu.2 hvrest]

lemma scanDeletes_clientFails {env : Env} {store : List StorageClass} {c : String}
    (items : List StorageClass) (h : env.clientFails c = true) :
    scanDeletes env store c items = [] := by
  induction items with
  | nil => rfl
  | cons u rest ih =>
      rw [scanDeletes_cons, ih]
      have hcond : deleteCond env store c u = false := by
        unfold deleteCond
        split <;> simp [h]
      rw [hcond]
      simp

lemma scanAddsFlat_presence (env : Env) (w : World) (k : String × String)
    (hmem : k ∈ env.clusterNames.flatMap (scanAddsOf env w)) :
    (findSC k.2 w.superStore).isSome = true ∧
      (findSC k.2 (w.tenantStore k.1)).isSome = true := by
  rcases List.mem_flatMap.mp hmem with ⟨c, _, hin⟩
  rcases mem_scanAddsOf hin with ⟨_, v, hv, hk, hcond⟩
  rcases enqueueCond_found hcond with ⟨p, hsg, _, _⟩
  have h1 : k.1 = c := congrArg Prod.fst hk
  have h2 : k.2 = v.name := congrArg Prod.snd hk
  rw [h1, h2]
  constructor
  · rw [superGet_found hsg]
    rfl
  · exact findSC_isSome_of_mem hv rfl

lemma count_sweepAdds_zero_of_present (env : Env) (w : World) (k : String × String)
    (hpres : (findSC k.2 (w.tenantStore k.1)).isSome = true) :
    (sweepAddsOf env w).count k = 0 := by
  rw [List.count_eq_zero]
  intro hm
  rcases mem_sweepAddsOf hm with ⟨p, _, _, c, _, hk, _, hnone⟩
  have h1 : k.1 = c := congrArg Prod.fst hk
  have h2 : k.2 = p.name := congrArg Prod.snd hk
  rw [h1, h2, hnone] at hpres
  simp at hpres

lemma foldl_succ_length {α : Type} (l : List α) (n : Nat) :
    l.foldl (fun m _ => m + 1) n = n + l.length := by
  induction l generalizing n with
  | nil => simp
  | cons a rest ih => rw [List.foldl_cons, ih, List.length_cons]; omega

lemma scanPhase_skip_failed (env : Env) (cn : String)
    (h : env.tenantListFails cn = true) (l : List String) (w : World) :
    (scanPhase env l w).obs = (scanPhase env (l.filter (fun c => !(c == cn))) w).obs := by
  induction l generalizing w with
  | nil => rfl
  | cons a rest ih =>
      by_cases hac : a = cn
      · subst hac
        have hfilter : (a :: rest).filter (fun c => !(c == a)) =
            rest.filter (fun c => !(c == a)) := by simp
        rw [hfilter, scanPhase_cons, scan_failed env a w h]
        calc (scanPhase env rest { w with errorLogs := w.errorLogs + 1 }).obs
            = (scanPhase env rest w).obs :=
              scanPhase_obs_congr env rest (obs_logShift w (w.errorLogs + 1))
          _ = (scanPhase env (rest.filter (fun c => !(c == a))) w).obs := ih w
      · have hfilter : (a :: rest).filter (fun c => !(c == cn)) =
            a :: rest.filter (fun c => !(c == cn)) := by simp [hac]
        rw [hfilter, scanPhase_cons, scanPhase_cons]
        exact ih _

/-! Claim theorems. -/

/-- C1: for a same-named (super, tenant) pair processed by the tenant
scanner, if the equality evaluator reports no diff nothing changes (no
counter increment, no remedy); if it reports a diff the counter increments
by exactly one and exactly one upward remedy (cluster, name) is enqueued
when the super object is public, while none is enqueued when it is not. -/
theorem spec_c1_pair_drift_and_remedy (env : Env) (cn : String) (v p : StorageClass) (w : World)
    (h : superGet env w.superStore v.name = .found p) :
    (env.checkStorageClassEquality p v = none → checkOne env cn v w = w) ∧
    (∀ u, env.checkStorageClassEquality p v = some u →
      (checkOne env cn v w).drift = w.drift + 1 ∧
      (checkOne env cn v w).deletesAttempted = w.deletesAttempted ∧
      (env.publicStorageClass p = true →
        (checkOne env cn v w).upwardQueue = w.upwardQueue ++ [(cn, p.name)]) ∧
      (env.publicStorageClass p = false →
        (checkOne env cn v w).upwardQueue = w.upwardQueue)) := by
  constructor
  · intro he
    simp [checkOne, h, he]
  · intro u he
    cases hp : env.publicStorageClass p with
    | true =>
        refine ⟨by simp [checkOne, h, he, hp], by simp [checkOne, h, he, hp],
          fun _ => by simp [checkOne, h, he, hp], fun hc => ?_⟩
        simp [hp] at hc
    | false =>
        refine ⟨by simp [checkOne, h, he, hp], by simp [checkOne, h, he, hp],
          fun hc => ?_, fun _ => by simp [checkOne, h, he, hp]⟩
        simp [hp] at hc

/-- C1 witness: object `a` is public and its payload differs across super
and tenant `t1`, so the counter increments and one remedy is enqueued. -/
theorem spec_c1_witness :
    (checkOne benignEnv "t1" scA1 mismatchWorld).drift = mismatchWorld.drift + 1 ∧
    (checkOne benignEnv "t1" scA1 mismatchWorld).upwardQueue
      = mismatchWorld.upwardQueue ++ [("t1", scA.name)] := by
  have h := spec_c1_pair_drift_and_remedy benignEnv "t1" scA1 scA mismatchWorld rfl
  have h2 := h.2 scA rfl
  exact ⟨h2.1, h2.2.2.1 rfl⟩

/-- C2 counterexample: tenant `t1` holds the orphan `c` (no super object of
that name), yet because client acquisition fails the whole pass attempts no
delete at all — refuting "exactly one delete remedy is attempted". -/
theorem spec_c2_counterexample :
    findSC scC.name orphanWorld.superStore = none ∧
    scC ∈ orphanWorld.tenantStore "t1" ∧
    (PatrollerDo clientFailsEnv orphanWorld).deletesAttempted = [] := by
  refine ⟨rfl, by decide, rfl⟩

/-- C2 (amended): for a tenant object whose super lookup is not-found,
exactly one delete remedy carrying the default cascading policy is
attempted for that (cluster, name) pair by the scan — whether or not the
delete itself then fails — provided the tenant client is acquired; if
client acquisition fails, no delete is attempted and the scan still
completes. -/
theorem spec_c2_amended_orphan_delete (env : Env) (cn : String) (v : StorageClass) (w : World)
    (h1 : env.tenantListFails cn = false)
    (h2 : ((w.tenantStore cn).map StorageClass.name).Nodup)
    (h3 : v ∈ w.tenantStore cn)
    (h4 : superGet env w.superStore v.name = .notFound) :
    (env.clientFails cn = false →
      ((checkStorageClassOfTenantCluster env cn w).deletesAttempted).count
          (cn, v.name, DefaultDeletionPolicy)
        = (w.deletesAttempted).count (cn, v.name, DefaultDeletionPolicy) + 1) ∧
    (env.clientFails cn = true →
      (checkStorageClassOfTenantCluster env cn w).deletesAttempted = w.deletesAttempted) := by
  constructor
  · intro h5
    rw [scan_deletes env cn w, List.count_append]
    have hone : (scanDeletesOf env w cn).count (cn, v.name, DefaultDeletionPolicy) = 1 := by
      unfold scanDeletesOf
      rw [if_neg (by simp [h1])]
      refine count_scanDeletes_one h2 h3 ?_
      unfold deleteCond
      rw [h4]
      simp [h5]
    omega
  · intro h5
    rw [scan_deletes env cn w]
    unfold scanDeletesOf
    rw [if_neg (by simp [h1])]
    rw [scanDeletes_clientFails _ h5]
    simp

/-- C2 witness: with a working client, the orphan `c` in `t1` gets exactly
one delete attempt with the default cascading policy. -/
theorem spec_c2_witness :
    ((checkStorageClassOfTenantCluster benignEnv "t1" orphanWorld).deletesAttempted).count
        ("t1", scC.name, DefaultDeletionPolicy)
      = (orphanWorld.deletesAttempted).count ("t1", scC.name, DefaultDeletionPolicy) + 1 :=
  (spec_c2_amended_orphan_delete benignEnv "t1" scC orphanWorld rfl (by decide) (by decide)
    rfl).1 rfl

/-- C3: in the trailing sweep, one probe of a tenant cluster for a public
super object enqueues exactly one upward remedy (cluster, name) if and only
if the probe is not-found (which is also logged); any other probe error is
logged without enqueuing; and a non-public super object is never probed or
remedied (its sweep step is the identity). -/
theorem spec_c3_sweep (env : Env) (p : StorageClass) (cn : String) (w : World) :
    (env.probeFails cn p.name = true →
      sweepProbe env p cn w = { w with errorLogs := w.errorLogs + 1 }) ∧
    (env.probeFails cn p.name = false →
      (∀ sc, findSC p.name (w.tenantStore cn) = some sc → sweepProbe env p cn w = w) ∧
      (findSC p.name (w.tenantStore cn) = none →
        sweepProbe env p cn w =
          { w with
              requeuedMetric := w.requeuedMetric + 1,
              upwardQueue := w.upwardQueue ++ [(cn, p.name)],
              errorLogs := w.errorLogs + 1 })) ∧
    (env.publicStorageClass p = false → sweepSuper env p w = w) := by
  refine ⟨?_, ?_, ?_⟩
  · intro h
    simp [sweepProbe, h]
  · intro h
    constructor
    · intro sc hs
      simp [sweepProbe, h, hs]
    · intro hn
      simp [sweepProbe, h, hn]
  · intro h
    simp [sweepSuper, h]

/-- C3 witness: tenant `t1` has no copy of public object `a`, so the probe
is not-found and exactly one remedy is enqueued (with a log and the requeue
metric bump). -/
theorem spec_c3_witness :
    sweepProbe benignEnv scA "t1" baseWorld =
      { baseWorld with
          requeuedMetric := baseWorld.requeuedMetric + 1,
          upwardQueue := baseWorld.upwardQueue ++ [("t1", scA.name)],
          errorLogs := baseWorld.errorLogs + 1 } :=
  ((spec_c3_sweep benignEnv scA "t1" baseWorld).2.1 rfl).2 rfl

/-- C4 counterexample: with no tenant clusters the pass returns before
resetting or publishing anything — the gauge stays `none` (in particular it
is not `some 0`) and the counter keeps its stale value 5, refuting "the
Drift Count published for that pass is its reset value, zero". -/
theorem spec_c4_counterexample :
    emptyClustersEnv.clusterNames = [] ∧
    PatrollerDo emptyClustersEnv { baseWorld with drift := 5 } = { baseWorld with drift := 5 } ∧
    (PatrollerDo emptyClustersEnv { baseWorld with drift := 5 }).publishedGauge = none ∧
    ¬ (PatrollerDo emptyClustersEnv { baseWorld with drift := 5 }).publishedGauge = some 0 ∧
    (PatrollerDo emptyClustersEnv { baseWorld with drift := 5 }).drift = 5 := by
  refine ⟨rfl, rfl, rfl, by decide, rfl⟩

/-- C4 (amended): if the tenant cluster set is empty the pass returns
immediately as a complete no-op — no scanners run, no remedies are issued,
the counter is not reset, and nothing is published to the metrics sink. -/
theorem spec_c4_amended_noop (env : Env) (w : World) (h : env.clusterNames = []) :
    PatrollerDo env w = w :=
  PatrollerDo_noClusters env w h

/-- C4 witness: the empty-cluster pass leaves the base world untouched. -/
theorem spec_c4_witness : PatrollerDo emptyClustersEnv baseWorld = baseWorld :=
  spec_c4_amended_noop emptyClustersEnv baseWorld rfl

/-- C5 counterexample: the tenant cluster set is non-empty and listing the
super master cache fails, and the pass publishes nothing — refuting "the
pass always finishes by publishing the aggregated Drift Count ... even when
listing the authoritative cache fails". -/
theorem spec_c5_counterexample :
    superListFailsEnv.clusterNames = ["t1"] ∧
    (PatrollerDo superListFailsEnv baseWorld).publishedGauge = none :=
  ⟨rfl, rfl⟩

/-- C5 (amended): per-tenant and per-object failures never abort the pass:
whatever the tenant-side failure oracles do, the pass publishes the
aggregated Drift Count whenever the super master listing succeeds; if that
listing fails, the sweep and the publish are skipped and the gauge is left
untouched. -/
theorem spec_c5_amended_publish (env : Env) (w : World)
    (h1 : env.clusterNames.isEmpty = false) :
    (env.superListFails = false →
      (PatrollerDo env w).publishedGauge = some ((PatrollerDo env w).drift)) ∧
    (env.superListFails = true →
      (PatrollerDo env w).publishedGauge = w.publishedGauge) := by
  constructor
  · intro h2
    rw [PatrollerDo_ok env w h1 h2]
  · intro h2
    rw [PatrollerDo_listFails env w h1 h2]
    show (scanPhase env env.clusterNames { w with drift := 0 }).publishedGauge =
      w.publishedGauge
    rw [scanPhase_publishedGauge]

/-- C5 witness: in a benign pass with a mismatch, the gauge is published
with the final counter value. -/
theorem spec_c5_witness :
    (PatrollerDo benignEnv mismatchWorld).publishedGauge =
      some ((PatrollerDo benignEnv mismatchWorld).drift) :=
  (spec_c5_amended_publish benignEnv mismatchWorld rfl).1 rfl

/-- C6: when a tenant cluster's object listing fails, that scanner only
logs — no remedies, no counter increments, no store changes — and the whole
scan phase behaves (up to the log counter) exactly as if that cluster had
been dropped from the pass, so every other tenant is scanned normally. -/
theorem spec_c6_tenant_isolation (env : Env) (cn : String) (w : World)
    (h : env.tenantListFails cn = true) :
    checkStorageClassOfTenantCluster env cn w = { w with errorLogs := w.errorLogs + 1 } ∧
    (scanPhase env env.clusterNames w).obs =
      (scanPhase env (env.clusterNames.filter (fun c => !(c == cn))) w).obs :=
  ⟨scan_failed env cn w h, scanPhase_skip_failed env cn h env.clusterNames w⟩

/-- C6 witness: cluster `bad`'s listing fails; its scan only logs and the
phase over ["bad", "t1"] is observationally the phase over ["t1"]. -/
theorem spec_c6_witness :
    checkStorageClassOfTenantCluster badListEnv "bad" baseWorld =
      { baseWorld with errorLogs := baseWorld.errorLogs + 1 } ∧
    (scanPhase badListEnv badListEnv.clusterNames baseWorld).obs =
      (scanPhase badListEnv (badListEnv.clusterNames.filter (fun c => !(c == "bad")))
        baseWorld).obs :=
  spec_c6_tenant_isolation badListEnv "bad" baseWorld rfl

/-- C7: `StartPatrol` returns an error exactly when the cache-sync gate
fails, in which case the patroller is never started; when the gate
succeeds the patroller is started and no error is returned. -/
theorem spec_c7_start_patrol (b : Bool) :
    ((StartPatrol b).errorMessage = none ↔ b = true) ∧
    (StartPatrol b).patrollerStarted = b := by
  cases b <;> simp [StartPatrol]

/-- C8: a tenant scan never mutates the authoritative cache, leaves every
other tenant cluster's objects untouched, only ever removes (deletes)
objects from its own cluster's store, and only appends to the upward
queue. -/
theorem spec_c8_frame (env : Env) (cn : String) (w : World) :
    (checkStorageClassOfTenantCluster env cn w).superStore = w.superStore ∧
    (∀ c, ¬ c = cn →
      (checkStorageClassOfTenantCluster env cn w).tenantStore c = w.tenantStore c) ∧
    (∀ c, ((checkStorageClassOfTenantCluster env cn w).tenantStore c).Sublist
      (w.tenantStore c)) ∧
    (∃ added, (checkStorageClassOfTenantCluster env cn w).upwardQueue =
      w.upwardQueue ++ added) :=
  ⟨scan_superStore env cn w,
   fun c hc => scan_tenantStore_ne env cn w c hc,
   fun c => scan_tenantStore_sublist env cn w c,
   ⟨scanAddsOf env w cn, scan_queue env cn w⟩⟩

/-- C8 witness: scanning `t1` (which deletes the orphan `c`) leaves the
super store and cluster `t2`'s store unchanged. -/
theorem spec_c8_witness :
    (checkStorageClassOfTenantCluster benignEnv "t1" orphanWorld).superStore =
      orphanWorld.superStore ∧
    (checkStorageClassOfTenantCluster benignEnv "t1" orphanWorld).tenantStore "t2" =
      orphanWorld.tenantStore "t2" :=
  ⟨(spec_c8_frame benignEnv "t1" orphanWorld).1,
   (spec_c8_frame benignEnv "t1" orphanWorld).2.1 "t2" (by decide)⟩

/-- C9: the counter increments are single atomic add steps, so any
interleaving (any permutation of all scanners' increment operations) yields
the same final value — the total number of increments — and that total is
exactly the counter value the sequential scan phase reaches after the
wait-for-all barrier. -/
theorem spec_c9_atomic_drift (env : Env) (w : World) (sched : List Unit)
    (hcl : env.clusterNames.Nodup)
    (hperm : sched.Perm
      (env.clusterNames.flatMap (fun c => List.replicate (clusterDriftOf env w c) ()))) :
    sched.foldl (fun n _ => n + 1) 0 = (env.clusterNames.map (clusterDriftOf env w)).sum ∧
    (scanPhase env env.clusterNames { w with drift := 0 }).drift =
      (env.clusterNames.map (clusterDriftOf env w)).sum := by
  constructor
  · rw [foldl_succ_length, Nat.zero_add, hperm.length_eq, List.length_flatMap]
    congr 1
    refine List.map_congr_left (fun c _ => ?_)
    simp
  · rw [scanPhase_drift env env.clusterNames _ hcl]
    have hmap : env.clusterNames.map (clusterDriftOf env { w with drift := 0 }) =
        env.clusterNames.map (clusterDriftOf env w) :=
      List.map_congr_left (fun c _ => rfl)
    rw [hmap]
    simp

/-- C9 witness: two tenant clusters each find one mismatch; every
interleaving of their two atomic increments ends at 2, which is also the
sequential scan phase's final counter value. -/
theorem spec_c9_witness :
    ([(), ()] : List Unit).foldl (fun n _ => n + 1) 0 =
      (twoClusterEnv.clusterNames.map (clusterDriftOf twoClusterEnv twoMismatchWorld)).sum ∧
    (scanPhase twoClusterEnv twoClusterEnv.clusterNames
      { twoMismatchWorld with drift := 0 }).drift =
      (twoClusterEnv.clusterNames.map (clusterDriftOf twoClusterEnv twoMismatchWorld)).sum := by
  have h := spec_c9_atomic_drift twoClusterEnv twoMismatchWorld [(), ()] (by decide) (by decide)
  exact ⟨h.1, h.2⟩

/-- C10: within one pass over caches with unique names and distinct tenant
clusters, at most one upward-sync enqueue happens for any (cluster, name)
key: the mismatch enqueue requires tenant presence, the sweep enqueue
requires tenant absence, and presence is preserved across the pass, so the
two sites are mutually exclusive for the same key. -/
theorem spec_c10_enqueue_at_most_once (env : Env) (w : World) (k : String × String)
    (h1 : env.clusterNames.Nodup)
    (h2 : (w.superStore.map StorageClass.name).Nodup)
    (h3 : ∀ c, ((w.tenantStore c).map StorageClass.name).Nodup) :
    ((PatrollerDo env w).upwardQueue).count k ≤ (w.upwardQueue).count k + 1 := by
  cases he : env.clusterNames.isEmpty with
  | true =>
      rw [PatrollerDo_noClusters env w (List.isEmpty_iff.mp he)]
      omega
  | false =>
      have hscan_q : (scanPhase env env.clusterNames { w with drift := 0 }).upwardQueue =
          w.upwardQueue ++ env.clusterNames.flatMap (scanAddsOf env { w with drift := 0 }) :=
        scanPhase_queue env env.clusterNames { w with drift := 0 } h1
      have hscan_le :
          (env.clusterNames.flatMap (scanAddsOf env { w with drift := 0 })).count k ≤ 1 :=
        count_scanAddsFlat_le env { w with drift := 0 } k h1 h3
      cases hs : env.superListFails with
      | true =>
          rw [PatrollerDo_listFails env w he hs]
          show ((scanPhase env env.clusterNames { w with drift := 0 }).upwardQueue).count k ≤ _
          rw [hscan_q, List.count_append]
          omega
      | false =>
          rw [PatrollerDo_ok env w he hs]
          show ((sweepPhase env
            (scanPhase env env.clusterNames { w with drift := 0 })).upwardQueue).count k ≤ _
          rw [sweepPhase_queue, hscan_q, List.count_append, List.count_append]
          have hw2s : (scanPhase env env.clusterNames { w with drift := 0 }).superStore =
              w.superStore := scanPhase_superStore env env.clusterNames _
          have hsweep_le :
              (sweepAddsOf env
                (scanPhase env env.clusterNames { w with drift := 0 })).count k ≤ 1 :=
            count_sweepAddsOf_le env _ k h1 (by rw [hw2s]; exact h2)
          by_cases hmem : k ∈ env.clusterNames.flatMap (scanAddsOf env { w with drift := 0 })
          · have hpres := scanAddsFlat_presence env { w with drift := 0 } k hmem
            have hpres2 : (findSC k.2
                ((scanPhase env env.clusterNames
                  { w with drift := 0 }).tenantStore k.1)).isSome = true :=
              scanPhase_findSC_present env env.clusterNames { w with drift := 0 }
                hpres.1 hpres.2
            have hzero := count_sweepAdds_zero_of_present env
              (scanPhase env env.clusterNames { w with drift := 0 }) k hpres2
            omega
          · have hz2 : (env.clusterNames.flatMap
                (scanAddsOf env { w with drift := 0 })).count k = 0 :=
              List.count_eq_zero.mpr hmem
            omega

/-- C10 witness: the benign mismatch pass enqueues the key (t1, a) at most
once more than it already appeared. -/
theorem spec_c10_witness :
    ((PatrollerDo benignEnv mismatchWorld).upwardQueue).count ("t1", "a") ≤
      (mismatchWorld.upwardQueue).count ("t1", "a") + 1 := by
  refine spec_c10_enqueue_at_most_once benignEnv mismatchWorld ("t1", "a")
    (by decide) (by decide) ?_
  intro c
  by_cases hc : c = "t1"
  · subst hc
    decide
  · have hz : mismatchWorld.tenantStore c = [] := by
      show (if (c == "t1") = true then [scA1] else []) = []
      rw [if_neg (by simp [hc])]
    rw [hz]
    decide

end StorageClassChecker
